import Mathlib

/-!
Verification development for the Zendesk ETL pipeline's incremental
synchronization and idempotent load engine.

The definitions below are shallow embeddings of the Python source:

  * `src/utils/load_utils.py`   — watermark files, `infer_schema`, filters;
  * `src/utils/extract_utils.py` — sync-watermark file reading;
  * `src/utils/transform_utils.py` — `deduplicate_dataframe`;
  * `src/etl/load.py`           — `load_parquet_incremental` (filtering,
                                   batching, watermark save policy);
  * `src/process_tickets/extract.py` — `extract_zendesk_data` and `main`.

Machine-level conventions: Unix timestamps are `Int` (Python ints are
unbounded); a value that Python renders as `None`/`NaN`/`NaT` is `none`
of an `Option`; a file that may be absent is `Option String`.
-/

namespace ZendeskETL

/-! ### Watermark file reading (`load_utils.load_last_load_timestamp`,
`extract_utils.load_last_sync_time`) -/

/-- Models Python `str.strip()`: drop whitespace from both ends of the
character sequence. -/
def pyStrip (s : List Char) : List Char :=
  ((s.dropWhile Char.isWhitespace).reverse.dropWhile Char.isWhitespace).reverse

/-- Models the digit-tail of Python `int(str)`: consumes decimal digits,
allowing single underscores strictly between digits, accumulating the value.
Returns `none` on any other character or on a misplaced underscore. -/
def pyDigitsAux : Nat → List Char → Option Nat
  | acc, [] => some acc
  | acc, c :: cs =>
    if c.isDigit then pyDigitsAux (acc * 10 + (c.toNat - 48)) cs
    else if c = '_' then
      match cs with
      | [] => none
      | d :: cs' =>
        if d.isDigit then pyDigitsAux (acc * 10 + (d.toNat - 48)) cs' else none
    else none

/-- Models Python `int(str)` on a stripped string: an optional sign followed
by at least one decimal digit (with optional underscore grouping);
anything else raises `ValueError`, modelled as `none`. -/
def pyInt? : List Char → Option Int
  | [] => none
  | '+' :: c :: cs =>
    if c.isDigit then (pyDigitsAux (c.toNat - 48) cs).map Int.ofNat else none
  | '-' :: c :: cs =>
    if c.isDigit then (pyDigitsAux (c.toNat - 48) cs).map (fun n => -(Int.ofNat n)) else none
  | c :: cs => if c.isDigit then (pyDigitsAux (c.toNat - 48) cs).map Int.ofNat else none

/-- Embedding of `load_utils.load_last_load_timestamp` (lines 283-303).
The watermark file is modelled as `Option String` (`none` = file absent).
The source reads the file, strips it, and returns `int(timestamp)` when the
stripped content is nonempty and parseable; every failure path
(missing file, empty content, `ValueError`, `IOError`) falls through to `0`. -/
def load_last_load_timestamp (file : Option String) : Int :=
  match file with
  | none => 0
  | some content =>
    let t := pyStrip content.data
    if t.isEmpty then 0
    else
      match pyInt? t with
      | some n => n
      | none => 0

/-- Embedding of `extract_utils.load_last_sync_time` (lines 7-21): same
read-strip-parse structure; empty content and `ValueError` both return `0`,
and a missing file returns `0`. -/
def load_last_sync_time (file : Option String) : Int :=
  match file with
  | none => 0
  | some content =>
    let t := pyStrip content.data
    if t.isEmpty then 0
    else
      match pyInt? t with
      | some n => n
      | none => 0

/-! ### Incremental load (`etl/load.py`, `load_parquet_incremental`)

A row is represented by the result of
`parse_iso_timestamp(row[updated_at_column])`: an `Option Int`
(`none` when the cell is null or unparseable). Nothing else about a row
affects filtering, row counting, or the watermark policy. -/

/-- Models the pandas mask of `load_parquet_incremental` line 147:
`(chunk._parsed_updated_at > last_load_ts) | (chunk._parsed_updated_at.isna())`.
A null parse compares as `False` in pandas but is kept by the `isna` arm. -/
def rowMask (lastLoadTs : Int) (ts : Option Int) : Bool :=
  match ts with
  | none => true
  | some t => decide (lastLoadTs < t)

/-- Models lines 145-149: the mask filter is applied only when
`last_load_ts > 0`; otherwise the whole chunk is loaded. -/
def filterChunk (lastLoadTs : Int) (chunk : List (Option Int)) : List (Option Int) :=
  if 0 < lastLoadTs then chunk.filter (rowMask lastLoadTs) else chunk

/-- Models the batch slicing of lines 126-128:
`for start_idx in range(0, total_file_rows, batch_size)` with
`chunk = parquet_file.iloc[start_idx:end_idx]`. Meaningful for
`n > 0` (Python `range` raises on step 0; here `n = 0` behaves as `1`). -/
def toBatches (n : Nat) : List α → List (List α)
  | [] => []
  | x :: xs => (x :: xs.take (n - 1)) :: toBatches n (xs.drop (n - 1))
  termination_by l => l.length
  decreasing_by simp [List.length_drop]; omega

/-- Running state of the batch loop of `load_parquet_incremental`:
`total_rows` (line 118, counting only inserted rows) and `max_updated_at`
(line 112, initialized to `last_load_ts`). -/
structure IncState where
  totalRows : Nat
  maxUpdatedAt : Int
  deriving DecidableEq, Repr

/-- Models one iteration of the batch loop (lines 126-235): filter the chunk
by the watermark mask, fold the chunk's maximum valid timestamp into
`max_updated_at` (lines 151-157), and count the surviving rows as inserted. -/
def processChunk (lastLoadTs : Int) (st : IncState) (chunk : List (Option Int)) : IncState :=
  let kept := filterChunk lastLoadTs chunk
  let valid := kept.filterMap id
  let newMax :=
    match valid.max? with
    | some m => if st.maxUpdatedAt < m then m else st.maxUpdatedAt
    | none => st.maxUpdatedAt
  ⟨st.totalRows + kept.length, newMax⟩

/-- Models the whole batch loop: fold `processChunk` over the batches. -/
def runBatches (lastLoadTs : Int) (batches : List (List (Option Int))) : IncState :=
  batches.foldl (processChunk lastLoadTs) ⟨0, lastLoadTs⟩

/-- Models the watermark save policy of `load_parquet_incremental`
lines 241-255. `some w` means `save_last_load_timestamp(table, w)` was
called with `w`; `none` means the stored watermark was left untouched.
`now` is `int(current_timestamp.timestamp())`. -/
def savedWatermark (lastLoadTs now : Int) (st : IncState) : Option Int :=
  if 0 < st.totalRows then
    if lastLoadTs < st.maxUpdatedAt then some st.maxUpdatedAt else some now
  else if lastLoadTs = 0 then some now
  else none

/-- Watermark value the run persists (or `none`): batch the rows, run the
loop, apply the save policy. This is the complete watermark-relevant
behavior of `load_parquet_incremental`. -/
def incrementalSaved (batchSize : Nat) (lastLoadTs now : Int)
    (rows : List (Option Int)) : Option Int :=
  savedWatermark lastLoadTs now (runBatches lastLoadTs (toBatches batchSize rows))

/-- Watermark stored on disk after the run: the saved value when a save
happened, the old value otherwise (`save_last_load_timestamp` overwrites
the file; no save leaves it intact). -/
def storedAfter (batchSize : Nat) (lastLoadTs now : Int)
    (rows : List (Option Int)) : Int :=
  (incrementalSaved batchSize lastLoadTs now rows).getD lastLoadTs

/-- Rows of the input that the run actually loads: concatenation of the
filtered chunks, which equals the watermark filter applied to the flat input. -/
def loadedRows (lastLoadTs : Int) (rows : List (Option Int)) : List (Option Int) :=
  filterChunk lastLoadTs rows

/-- Maximum parsed timestamp among the loaded rows, `none` when no loaded
row has a valid (non-null) parsed timestamp. -/
def loadedMax? (lastLoadTs : Int) (rows : List (Option Int)) : Option Int :=
  ((loadedRows lastLoadTs rows).filterMap id).max?

/-! ### Record deduplication (`utils/transform_utils.py`,
`deduplicate_dataframe`, lines 47-89) -/

/-- Modelled row of a transform-phase frame: the primary-key cell, the
parsed `updated_at` cell (result of `pd.to_datetime(..., errors='coerce')`,
`none` standing for `NaT`), and an opaque payload standing for every other
column of the row. -/
structure Rec where
  pk : Int
  upd : Option Int
  payload : Nat
  deriving DecidableEq, Repr

/-- Models the strict before relation of line 75,
`df.sort_values([primary_key_column, '_parsed_updated_at'], ascending=[True, False])`:
primary key ascending, then parsed timestamp descending with `NaT` placed
last (the default `na_position='last'`). Rows that tie on both keys keep
their input order, because pandas multi-key sorting is stable. -/
def sortBefore (a b : Rec) : Bool :=
  if a.pk ≠ b.pk then decide (a.pk < b.pk)
  else
    match a.upd, b.upd with
    | some x, some y => decide (y < x)
    | some _, none => true
    | none, _ => false

/-- Stable insertion: a row is placed before the first resident it does not
strictly follow, so sort-equal rows keep their input order. -/
def stableInsert (a : Rec) : List Rec → List Rec
  | [] => [a]
  | b :: bs => if sortBefore b a then b :: stableInsert a bs else a :: b :: bs

/-- Stable sort modelling `DataFrame.sort_values` on the two keys. -/
def sort_values : List Rec → List Rec
  | [] => []
  | a :: as => stableInsert a (sort_values as)

/-- Models `df.drop_duplicates(subset=[primary_key_column], keep='first')`
(lines 76 and 80): keep the first-seen row of each primary key value. -/
def drop_duplicates_first (seen : List Int) : List Rec → List Rec
  | [] => []
  | r :: rs =>
    if r.pk ∈ seen then drop_duplicates_first seen rs
    else r :: drop_duplicates_first (r.pk :: seen) rs

/-- Embedding of `deduplicate_dataframe` (lines 47-89). Column presence is
modelled by two flags: `pkPresent` is `primary_key_column in df.columns`
and `updPresent` is `updated_at_column and updated_at_column in df.columns`.
Returns the deduplicated rows and the number of duplicates removed. -/
def deduplicate_dataframe (rows : List Rec) (pkPresent updPresent : Bool) :
    List Rec × Nat :=
  if !pkPresent then (rows, 0)
  else
    let result :=
      if updPresent then drop_duplicates_first [] (sort_values rows)
      else drop_duplicates_first [] rows
    (result, rows.length - result.length)

/-! ### Schema inference (`utils/load_utils.py`, `infer_schema`,
lines 347-427) and boolean coercion (`etl/load.py`, lines 133-139) -/

/-- Scalar cell value of a frame column, as seen by `infer_schema`:
a null (`None`/`NaN`), a Python bool, an int, or a string. Unhashable
cells (arrays, lists) are excluded from boolean detection by the source's
`try/except` and are irrelevant to the claims here. -/
inductive PyVal where
  | vNull : PyVal
  | vBool : Bool → PyVal
  | vInt : Int → PyVal
  | vStr : String → PyVal
  deriving DecidableEq, Repr

/-- Null test used by `dropna()`. -/
def isNull : PyVal → Bool
  | .vNull => true
  | _ => false

/-- Models Python `str(v)` for the non-null scalar cells. -/
def pyStr : PyVal → String
  | .vNull => ""
  | .vBool b => if b then "True" else "False"
  | .vInt n => toString n
  | .vStr s => s

/-- Models Python `str.lower()` for the ASCII strings involved here. -/
def pyLower (s : String) : String :=
  ⟨s.data.map Char.toLower⟩

/-- Membership in the boolean literal set of `infer_schema` line 392:
`['true', 'false', '1', '0', '1.0', '0.0']`. -/
def isBoolLiteral (s : String) : Bool :=
  s = "true" || s = "false" || s = "1" || s = "0" || s = "1.0" || s = "0.0"

/-- Models `Series.unique()`: distinct values in first-occurrence order. -/
def uniqueAux (seen : List PyVal) : List PyVal → List PyVal
  | [] => []
  | v :: vs => if v ∈ seen then uniqueAux seen vs else v :: uniqueAux (v :: seen) vs

/-- Models the boolean-column detection of `infer_schema` lines 381-397 for
one column: skip text-override columns; drop nulls; require at least one
non-null value, at most 2 distinct values, and every distinct value's
lowercased string rendering in the boolean literal set. -/
def detectBooleanColumn (isTextOverride : Bool) (cells : List PyVal) : Bool :=
  if isTextOverride then false
  else
    let nonNull := cells.filter (fun v => !(isNull v))
    if nonNull.length > 0 then
      let uniq := uniqueAux [] nonNull
      decide (uniq.length ≤ 2) && uniq.all (fun v => isBoolLiteral (pyLower (pyStr v)))
    else false

/-- Models the sampling of `infer_schema` lines 374-377 followed by the
boolean detection: decisions are made from the first `sampleSize` cells. -/
def infer_schema_boolean (isTextOverride : Bool) (sampleSize : Nat)
    (cells : List PyVal) : Bool :=
  detectBooleanColumn isTextOverride (cells.take sampleSize)

/-- Models `pd.to_numeric(value, errors='coerce')` on one scalar cell:
bools become `1`/`0`, ints pass through, numeric strings parse
(a decimal form with an all-zero fractional part yields its integer value),
and anything else — including the strings `true` and `false` — coerces to
`NaN` (`none`). `errors='coerce'` never raises, so for this value-level
coercion the `replace`-based fallback of `infer_schema` lines 415-421 is
unreachable. Non-integral numeric strings are collapsed to `none` here;
the finer distinction the classification-removal path needs is carried by
`parseNumeric`, proven consistent with this function in
`to_numeric_coerce_str_eq`. -/
def to_numeric_coerce : PyVal → Option Int
  | .vNull => none
  | .vBool b => some (if b then 1 else 0)
  | .vInt n => some n
  | .vStr s =>
    match s.data.splitOn '.' with
    | [intPart] => pyInt? intPart
    | [intPart, frac] => if frac.all (· = '0') then pyInt? intPart else none
    | _ => none

/-- Models `.astype('boolean')` on the result of `to_numeric` for the cell
values the load path feeds it: `NaN` stays `NA`, zero becomes `False`, one
becomes `True`. On numbers outside `{0, 1, NaN}` pandas raises `TypeError`
instead; that raising path matters only for the classification-removal
step of `infer_schema` and is modelled there by `to_numeric_bool_like`. -/
def astype_boolean : Option Int → Option Bool
  | none => none
  | some n => some (decide (n ≠ 0))

/-- Models the per-column coercion applied to every detected boolean column
by `load_parquet_incremental` lines 137-139 (and by `infer_schema` lines
409-413): `pd.to_numeric(chunk[col], errors='coerce').astype('boolean')`. -/
def coerce_boolean_column (cells : List PyVal) : List (Option Bool) :=
  cells.map (fun v => astype_boolean (to_numeric_coerce v))

/-- Three-way outcome of `pd.to_numeric(str, errors='coerce')` on one
string, refining `to_numeric_coerce`: not numeric (coerces to `NaN`),
numeric with an integral value, or numeric with a non-integral value
(which can never be `0` or `1` and so is never bool-like). Decimal integer
and fraction forms are modelled; scientific notation is not. -/
inductive NumParse where
  | notNum : NumParse
  | intVal : Int → NumParse
  | nonInt : NumParse
  deriving DecidableEq, Repr

/-- String-cell numeric parse distinguishing `NaN` from non-integral
numbers: an integral form is an optional sign, digits, and an optional
all-zero fraction; a non-integral form has a nonzero digit fraction after
an integer part that is empty, a bare sign, or a parseable integer. -/
def parseNumeric (cs : List Char) : NumParse :=
  match cs.splitOn '.' with
  | [p] =>
    match pyInt? p with
    | some n => .intVal n
    | none => .notNum
  | [p, f] =>
    if f.all (· = '0') then
      match pyInt? p with
      | some n => .intVal n
      | none => .notNum
    else if f.all Char.isDigit
        && (p.isEmpty || p = ['+'] || p = ['-'] || (pyInt? p).isSome) then .nonInt
    else .notNum
  | _ => .notNum

/-- Models whether `.astype('boolean')` accepts the `to_numeric` rendering
of one cell during the full-column coercion of `infer_schema` lines
410-413: `NaN` (null or non-numeric) and the numbers `0` and `1` are
bool-like; any other numeric value makes the cast raise `TypeError`
("Need to pass bool-like values"). -/
def to_numeric_bool_like : PyVal → Bool
  | .vNull => true
  | .vBool _ => true
  | .vInt n => n == 0 || n == 1
  | .vStr s =>
    match parseNumeric s.data with
    | .notNum => true
    | .intVal n => n == 0 || n == 1
    | .nonInt => false

/-- Models whether one cell survives the `replace`-dictionary fallback of
`infer_schema` lines 417-421 followed by `.astype('boolean')`: nulls and
Python bools pass, the ints `0`/`1` and the eight literal string keys map
to bools, and every other value is left in place and makes the cast
raise. -/
def replace_bool_like : PyVal → Bool
  | .vNull => true
  | .vBool _ => true
  | .vInt n => n == 0 || n == 1
  | .vStr s =>
    s == "true" || s == "True" || s == "TRUE" || s == "1"
      || s == "false" || s == "False" || s == "FALSE" || s == "0"

/-- Success of the primary full-column coercion path (lines 410-413):
every cell of the column is bool-like after `to_numeric`. -/
def astype_numeric_path_ok (cells : List PyVal) : Bool :=
  cells.all to_numeric_bool_like

/-- Success of the `replace` fallback path (lines 415-421): every cell of
the column is bool-like after the replacement dictionary. -/
def replace_path_ok (cells : List PyVal) : Bool :=
  cells.all replace_bool_like

/-- Final boolean classification of `infer_schema` for one column: the
column is in the returned `boolean_columns` iff the sample detected it
(lines 381-397) and the full-column coercion succeeded on one of the two
paths — otherwise `boolean_columns.remove(col)` (line 425) un-classifies
it. -/
def infer_schema_boolean_final (isTextOverride : Bool) (sampleSize : Nat)
    (cells : List PyVal) : Bool :=
  infer_schema_boolean isTextOverride sampleSize cells
    && (astype_numeric_path_ok cells || replace_path_ok cells)

/-! ### Paginated incremental fetch (`process_tickets/extract.py`) -/

/-- Continuation URL abstracted to its embedded `start_time` query
parameter as read by `extract_zendesk_data` line 81:
`int(query_params.get('start_time', [0])[0])`, defaulting to `0` when the
parameter is absent. -/
structure Url where
  startTime : Int
  deriving DecidableEq, Repr

/-- One page response from the incremental export endpoint: the records
under the resource key, the reported `end_time`, and the `next_page`
cursor. -/
structure PageResp where
  records : List Nat
  end_time : Option Int
  next_page : Option Url
  deriving DecidableEq, Repr

/-- Result of `extract_zendesk_data`: accumulated records, the
`final_end_time` taken from the last processed page, and the URLs actually
requested over HTTP, in order. -/
structure FetchResult where
  records : List Nat
  final_end_time : Option Int
  requested : List Url
  deriving DecidableEq, Repr

/-- Embedding of the `while url:` loop of `extract_zendesk_data`
(lines 49-94), with rate-limit retries elided (a 429 re-issues the same
request and does not change the data flow). `fetch` is the server; `fuel`
bounds the iterations so the function is total, and `none` is returned only
when fuel runs out with the loop still live. Each iteration requests `url`,
appends the page's records, overwrites `final_end_time` with the page's
`end_time`, and applies the early-exit check of lines 74-88: a `next_page`
cursor whose embedded start time exceeds `target` clears the URL without
that cursor ever being requested. -/
def extract_zendesk_data (fetch : Url → PageResp) (target : Int) :
    Nat → Option Url → List Nat → Option Int → List Url → Option FetchResult
  | _, none, acc, fe, log => some ⟨acc, fe, log⟩
  | 0, some _, _, _, _ => none
  | fuel + 1, some url, acc, _, log =>
    let data := fetch url
    let url' :=
      match data.next_page with
      | some u => if target < u.startTime then none else some u
      | none => none
    extract_zendesk_data fetch target fuel url' (acc ++ data.records)
      data.end_time (log ++ [url])

/-- Models the watermark decision of `main` (extract.py lines 126-152):
early return with no write when the stored sync time has already reached
the target stop time; otherwise, after extraction,
`save_sync_time(TARGET_STOP_TIMESTAMP)` writes the target itself — the
API-reported end time `apiEndTime` is ignored. -/
def main_saved_sync_time (lastSync target : Int) (apiEndTime : Option Int) :
    Option Int :=
  if target ≤ lastSync then none
  else some target

/-! ### Upsert table model (`etl/load.py` lines 204-232) -/

/-- Table state modelled as a map from primary key to row; `none` means no
row with that key exists. -/
def Table := Int → Option Rec

/-- Models one row of `INSERT ... ON CONFLICT (pk) DO UPDATE SET`
(load.py lines 218-223): the incoming row unconditionally replaces every
non-key column of an existing row with the same key, i.e. the whole stored
row becomes the incoming one. -/
def upsert (T : Table) (r : Rec) : Table :=
  fun k => if k = r.pk then some r else T k

/-- Models `execute_values` applying the insert row by row in order:
within one load, a later row with the same key wins. -/
def upsertAll (T : Table) (rows : List Rec) : Table :=
  rows.foldl upsert T

/-- Incremental filter of load.py lines 145-149 applied to whole records. -/
def keptRecs (lastLoadTs : Int) (rows : List Rec) : List Rec :=
  if 0 < lastLoadTs then rows.filter (fun r => rowMask lastLoadTs r.upd) else rows

/-- One incremental load run against table state `T` with stored load
watermark `w`: upsert the watermark-filtered rows in order. -/
def runLoad (T : Table) (rows : List Rec) (w : Int) : Table :=
  upsertAll T (keptRecs w rows)

/-- Proviso check: no row's parsed timestamp lies in the half-open window
`(w1, w2]`. -/
def noTsInWindow (w1 w2 : Int) (rows : List Rec) : Bool :=
  rows.all (fun r =>
    match r.upd with
    | none => true
    | some t => !(decide (w1 < t) && decide (t ≤ w2)))

/-! ### Lemmas: the chunked loop computes the flat filter/max -/

/-- Folding `max` over a list is determined by the list's `max?`. -/
lemma foldl_max_eq_max? (l : List Int) (a : Int) :
    l.foldl max a = l.max?.elim a (max a) := by
  induction l generalizing a with
  | nil => rfl
  | cons x xs ih =>
    rw [List.foldl_cons, ih (max a x), List.max?_cons]
    cases h : xs.max? with
    | none => simp
    | some m => simp [max_assoc]

/-- Pointwise form of `max` used in the fold below. -/
lemma if_lt_eq_max (x y : Int) : (if x < y then y else x) = max x y := by
  rcases lt_or_ge x y with h | h
  · simp [h, max_eq_right h.le]
  · simp [not_lt_of_ge h, max_eq_left h]

/-- Taking a chunk's maximum and comparing once equals folding the
comparison elementwise. -/
lemma max?_step_eq_foldl (l : List Int) (a : Int) :
    (match l.max? with
     | some m => if a < m then m else a
     | none => a) = l.foldl (fun acc t => if acc < t then t else acc) a := by
  have hmax : (fun (acc t : Int) => if acc < t then t else acc) = max := by
    funext x y; exact if_lt_eq_max x y
  rw [hmax, foldl_max_eq_max?]
  cases h : l.max? with
  | none => rfl
  | some m => simp [if_lt_eq_max]

/-- Filtering distributes over the chunk decomposition. -/
lemma filterChunk_append (lastLoadTs : Int) (a b : List (Option Int)) :
    filterChunk lastLoadTs (a ++ b) =
      filterChunk lastLoadTs a ++ filterChunk lastLoadTs b := by
  unfold filterChunk
  split
  · exact List.filter_append ..
  · rfl

/-- Folding the batch loop from any starting state adds the flat filtered
row count and folds the flat maximum. -/
lemma foldl_processChunk_eq (lastLoadTs : Int) (B : List (List (Option Int)))
    (st : IncState) :
    B.foldl (processChunk lastLoadTs) st =
      ⟨st.totalRows + (filterChunk lastLoadTs B.flatten).length,
       ((filterChunk lastLoadTs B.flatten).filterMap id).foldl
         (fun acc t => if acc < t then t else acc) st.maxUpdatedAt⟩ := by
  induction B generalizing st with
  | nil =>
    cases st with
    | mk t m => simp [filterChunk]
  | cons c B ih =>
    rw [List.foldl_cons, ih]
    have hflat : (c :: B).flatten = c ++ B.flatten := rfl
    rw [hflat, filterChunk_append, List.filterMap_append, List.foldl_append]
    unfold processChunk
    simp only [List.length_append]
    rw [max?_step_eq_foldl]
    congr 1
    omega

/-- A positive batch size slices the input into chunks that flatten back to
the input. -/
lemma toBatches_flatten (n : Nat) (l : List α) : (toBatches n l).flatten = l := by
  induction l using toBatches.induct n with
  | case1 => simp [toBatches]
  | case2 x xs ih =>
    rw [show toBatches n (x :: xs) = (x :: xs.take (n - 1)) :: toBatches n (xs.drop (n - 1))
        from by simp [toBatches]]
    simp [ih, List.take_append_drop]

/-- Running the batch loop over any slicing computes the flat filtered row
count and the flat running maximum. -/
lemma runBatches_eq (lastLoadTs : Int) (bs : Nat) (rows : List (Option Int)) :
    runBatches lastLoadTs (toBatches bs rows) =
      ⟨(loadedRows lastLoadTs rows).length,
       ((loadedRows lastLoadTs rows).filterMap id).foldl
         (fun acc t => if acc < t then t else acc) lastLoadTs⟩ := by
  unfold runBatches loadedRows
  rw [foldl_processChunk_eq, toBatches_flatten]
  simp

/-! ### Claim C1: watermark save policy -/

/-- Claim C1: after all batches of an incremental load run are committed,
if the maximum parsed timestamp among the loaded rows exceeds the previous
load watermark it is persisted; otherwise if at least one row was loaded
the current wall-clock time is persisted as a fallback; otherwise if zero
rows were loaded and the stored watermark is `0` the wall-clock time is
persisted as a bootstrap value; in every other case nothing is persisted. -/
theorem C1_watermark_save_policy (bs : Nat) (hbs : 0 < bs) (last now : Int)
    (rows : List (Option Int)) :
    (∀ m, loadedMax? last rows = some m → last < m →
        incrementalSaved bs last now rows = some m)
    ∧ ((loadedRows last rows).length ≠ 0 →
        (∀ m, loadedMax? last rows = some m → m ≤ last) →
          incrementalSaved bs last now rows = some now)
    ∧ ((loadedRows last rows).length = 0 → last = 0 →
        incrementalSaved bs last now rows = some now)
    ∧ ((loadedRows last rows).length = 0 → last ≠ 0 →
        incrementalSaved bs last now rows = none) := by
  have hrun : incrementalSaved bs last now rows =
      savedWatermark last now
        ⟨(loadedRows last rows).length,
         ((loadedRows last rows).filterMap id).foldl
           (fun acc t => if acc < t then t else acc) last⟩ := by
    unfold incrementalSaved
    rw [runBatches_eq]
  have hmaxfold : ((loadedRows last rows).filterMap id).foldl
      (fun acc t => if acc < t then t else acc) last =
      ((loadedRows last rows).filterMap id).max?.elim last (max last) := by
    rw [show (fun (acc t : Int) => if acc < t then t else acc) = max from by
          funext x y; exact if_lt_eq_max x y,
        foldl_max_eq_max?]
  refine ⟨?_, ?_, ?_, ?_⟩
  · intro m hm hlt
    have hV : ((loadedRows last rows).filterMap id).max? = some m := hm
    have hlen : (loadedRows last rows).length ≠ 0 := by
      intro h0
      rw [List.length_eq_zero.mp h0] at hV
      simp at hV
    rw [hrun]
    unfold savedWatermark
    simp only [hmaxfold, hV, Option.elim]
    have hpos : 0 < (loadedRows last rows).length := Nat.pos_of_ne_zero hlen
    rw [max_eq_right hlt.le]
    simp [hpos, hlt]
  · intro hlen hall
    have hpos : 0 < (loadedRows last rows).length := Nat.pos_of_ne_zero hlen
    rw [hrun]
    unfold savedWatermark
    simp only [hmaxfold]
    cases hV : ((loadedRows last rows).filterMap id).max? with
    | none => simp [hpos, Option.elim]
    | some m =>
      have hle : m ≤ last := hall m hV
      simp only [Option.elim]
      rw [max_eq_left hle]
      simp [hpos]
  · intro h0 hz
    subst hz
    rw [hrun]
    unfold savedWatermark
    simp [h0]
  · intro h0 hz
    rw [hrun]
    unfold savedWatermark
    simp [h0, hz]

/-- Witness for C1: with watermark `10`, wall-clock `99`, batch size `2`
and rows parsed to `[20, 5, null]`, the loaded maximum `20` exceeds `10`
and is persisted. -/
theorem C1_watermark_save_policy_witness :
    0 < 2 ∧ incrementalSaved 2 10 99 [some 20, some 5, none] = some 20 :=
  ⟨by decide,
   (C1_watermark_save_policy 2 (by decide) 10 99 [some 20, some 5, none]).1
     20 (by decide) (by decide)⟩

/-! ### Claim C3: incremental row selection -/

/-- Claim C3: with a positive stored load watermark, a row is selected for
loading iff its parsed timestamp strictly exceeds the watermark or its
timestamp parses to null; rows with parsed timestamp at or below the
watermark are excluded. -/
theorem C3_incremental_filter (last : Int) (h : 0 < last)
    (chunk : List (Option Int)) (ts : Option Int) :
    ts ∈ filterChunk last chunk ↔
      ts ∈ chunk ∧ (ts = none ∨ ∃ t, ts = some t ∧ last < t) := by
  unfold filterChunk
  rw [if_pos h, List.mem_filter]
  cases ts with
  | none => simp [rowMask]
  | some t => simp [rowMask]

/-- Witness for C3: with watermark `5`, the row parsed to `7` is selected
from the chunk `[7, 3, null]`. -/
theorem C3_incremental_filter_witness :
    0 < (5 : Int) ∧ some (7 : Int) ∈ filterChunk 5 [some 7, some 3, none] :=
  ⟨by decide,
   (C3_incremental_filter 5 (by decide) [some 7, some 3, none] (some 7)).mpr
     ⟨by decide, Or.inr ⟨7, rfl, by decide⟩⟩⟩

/-! ### Claim C8: watermark monotonicity -/

/-- Counterexample for C8 as stated: with stored watermark `100`, a run at
wall-clock time `50` that loads one null-timestamp row persists `50`,
strictly decreasing the stored watermark. -/
theorem C8_counterexample : ¬ (100 ≤ storedAfter 1 100 50 [none]) := by
  unfold storedAfter incrementalSaved
  rw [runBatches_eq]
  decide

/-- Claim C8 (amended): the stored load watermark is nondecreasing across a
run provided the wall-clock time at the run is at least the previously
stored watermark; the fallback and bootstrap branches write the wall-clock
time, which may regress the watermark when the clock lags it. -/
theorem C8_watermark_monotone (bs : Nat) (hbs : 0 < bs) (last now : Int)
    (rows : List (Option Int)) (h : last ≤ now) :
    last ≤ storedAfter bs last now rows := by
  unfold storedAfter incrementalSaved savedWatermark
  split_ifs with h1 h2 h3 <;> simp [Option.getD] <;> omega

/-- Witness for C8 (amended): a run with watermark `10` at wall-clock `99`
on an empty input leaves the watermark at least `10`. -/
theorem C8_watermark_monotone_witness :
    0 < 1 ∧ (10 : Int) ≤ 99 ∧ (10 : Int) ≤ storedAfter 1 10 99 [] :=
  ⟨by decide, by decide, C8_watermark_monotone 1 (by decide) 10 99 [] (by decide)⟩

/-! ### Claims C5 and C9: deduplication -/

/-- Filtering the kept rows by one primary key value yields at most the
first-seen matching row among those whose key is not yet seen. -/
lemma drop_duplicates_first_filter (k : Int) (seen : List Int) (rows : List Rec) :
    (drop_duplicates_first seen rows).filter (fun r => r.pk == k)
      = if k ∈ seen then [] else (rows.filter (fun r => r.pk == k)).take 1 := by
  induction rows generalizing seen with
  | nil => simp [drop_duplicates_first]
  | cons r rs ih =>
    unfold drop_duplicates_first
    by_cases hr : r.pk ∈ seen
    · rw [if_pos hr, ih]
      by_cases hk : k ∈ seen
      · simp [hk]
      · have hne : ¬ (r.pk == k) := by
          simp only [beq_iff_eq]
          intro h
          exact hk (h ▸ hr)
        simp [hk, List.filter_cons, hne]
    · rw [if_neg hr]
      by_cases hk : k ∈ seen
      · have hne : ¬ (r.pk == k) := by
          simp only [beq_iff_eq]
          intro h
          exact hr (h ▸ hk)
        simp [hk, List.filter_cons, hne, ih]
      · by_cases heq : r.pk = k
        · subst heq
          simp [List.filter_cons, ih, hk]
        · have hne : ¬ (r.pk == k) := by simpa using heq
          have hk' : k ∉ r.pk :: seen := by
            simp only [List.mem_cons]
            push_neg
            exact ⟨fun h => heq h.symm, hk⟩
          simp [List.filter_cons, hne, ih, hk', hk]

/-- Claim C5: an input of exactly two records with the same primary key and
parseable timestamps `t1 < t2` deduplicates, in either input order, to
exactly the record carrying `t2`, with a removed count of `1`. -/
theorem C5_dedup_keeps_latest (r1 r2 : Rec) (hpk : r1.pk = r2.pk)
    (t1 t2 : Int) (h1 : r1.upd = some t1) (h2 : r2.upd = some t2)
    (hlt : t1 < t2) :
    deduplicate_dataframe [r1, r2] true true = ([r2], 1)
    ∧ deduplicate_dataframe [r2, r1] true true = ([r2], 1) := by
  have hb21 : sortBefore r2 r1 = true := by
    simp [sortBefore, hpk, h1, h2, hlt]
  have hb12 : sortBefore r1 r2 = false := by
    simp [sortBefore, hpk, h1, h2]
    omega
  constructor
  · simp [deduplicate_dataframe, sort_values, stableInsert, hb21,
      drop_duplicates_first, hpk]
  · simp [deduplicate_dataframe, sort_values, stableInsert, hb12,
      drop_duplicates_first, hpk]

/-- Witness for C5: two concrete records with key `1` and timestamps
`3 < 8` deduplicate to the later record with one removal. -/
theorem C5_dedup_keeps_latest_witness :
    deduplicate_dataframe [⟨1, some 3, 10⟩, ⟨1, some 8, 20⟩] true true
      = ([⟨1, some 8, 20⟩], 1) :=
  (C5_dedup_keeps_latest ⟨1, some 3, 10⟩ ⟨1, some 8, 20⟩ rfl 3 8 rfl rfl
    (by decide)).1

/-- Claim C9: deduplication never fails on missing columns. With the
primary-key column absent it returns the input unchanged with a removed
count of `0`; with the primary-key column present but the `updated_at`
column absent it keeps exactly the first-seen occurrence of each key
(stated per key `k`: the output's rows with key `k` are the first input
row with key `k`). -/
theorem C9_dedup_missing_fields (rows : List Rec) (u : Bool) (k : Int) :
    deduplicate_dataframe rows false u = (rows, 0)
    ∧ (deduplicate_dataframe rows true false).1.filter (fun r => r.pk == k)
        = (rows.filter (fun r => r.pk == k)).take 1 := by
  constructor
  · simp [deduplicate_dataframe]
  · have h : (deduplicate_dataframe rows true false).1
        = drop_duplicates_first [] rows := by
      simp [deduplicate_dataframe]
    rw [h, drop_duplicates_first_filter]
    simp

/-! ### Claim C10: watermark read defaults -/

/-- Claim C10: reading a watermark file — the load watermark
(`load_last_load_timestamp`) or the sync watermark (`load_last_sync_time`) —
is total (never raises) and returns `0` whenever the file is missing, its
stripped content is empty, or its stripped content is not a parseable
decimal integer, making a corrupted or absent file indistinguishable from
the first-run state. -/
theorem C10_watermark_read_defaults (file : Option String) :
    (file = none →
      load_last_load_timestamp file = 0 ∧ load_last_sync_time file = 0)
    ∧ (∀ s, file = some s → (pyStrip s.data).isEmpty = true →
      load_last_load_timestamp file = 0 ∧ load_last_sync_time file = 0)
    ∧ (∀ s, file = some s → pyInt? (pyStrip s.data) = none →
      load_last_load_timestamp file = 0 ∧ load_last_sync_time file = 0) := by
  refine ⟨?_, ?_, ?_⟩
  · intro h
    subst h
    exact ⟨rfl, rfl⟩
  · intro s hs ht
    subst hs
    simp [load_last_load_timestamp, load_last_sync_time, ht]
  · intro s hs hp
    subst hs
    by_cases he : (pyStrip s.data).isEmpty
    · simp [load_last_load_timestamp, load_last_sync_time, he]
    · simp [load_last_load_timestamp, load_last_sync_time, he, hp]

/-- Witness for C10: a file containing `garbage` reads as watermark `0`
for both the load and the sync watermark. -/
theorem C10_watermark_read_defaults_witness :
    load_last_load_timestamp (some "garbage") = 0
    ∧ load_last_sync_time (some "garbage") = 0 :=
  (C10_watermark_read_defaults (some "garbage")).2.2 "garbage" rfl (by decide)

/-! ### Claim C6: boolean classification -/

/-- Consistency of the refined string parse with the value-level coercion:
`to_numeric_coerce` on a string is exactly the integral case of
`parseNumeric`, with `NaN` and non-integral numerics both collapsing to
`none`. -/
lemma to_numeric_coerce_str_eq (s : String) :
    to_numeric_coerce (.vStr s)
      = match parseNumeric s.data with
        | .intVal n => some n
        | _ => none := by
  show (match s.data.splitOn '.' with
        | [intPart] => pyInt? intPart
        | [intPart, frac] => if frac.all (· = '0') then pyInt? intPart else none
        | _ => none)
      = _
  cases h : s.data.splitOn '.' with
  | nil => simp [parseNumeric, h]
  | cons p rest =>
    cases rest with
    | nil =>
      simp only [parseNumeric, h]
      cases pyInt? p <;> rfl
    | cons f rest2 =>
      cases rest2 with
      | nil =>
        simp only [parseNumeric, h]
        by_cases hz : (f.all fun x => x = '0') = true
        · simp only [hz, if_true]
          cases pyInt? p <;> rfl
        · simp only [hz, if_false]
          by_cases hd : (f.all Char.isDigit
              && (p.isEmpty || p = ['+'] || p = ['-'] || (pyInt? p).isSome)) = true
          · simp [hd]
          · simp [hd]
      | cons g rest3 => simp [parseNumeric, h]

/-- Demonstration of the removal path: a column whose sample is all the
string `1` is detected boolean from the sample, but a later cell `2` makes
both full-column coercion paths raise, so the final classification drops
the column. -/
lemma sample_detected_but_removed :
    infer_schema_boolean false 3
      [PyVal.vStr "1", PyVal.vStr "1", PyVal.vStr "1", PyVal.vStr "2"] = true
    ∧ infer_schema_boolean_final false 3
      [PyVal.vStr "1", PyVal.vStr "1", PyVal.vStr "1", PyVal.vStr "2"] = false := by
  decide

/-- Claim C7 concerns the coercion of classified boolean columns. The code
diverges from the claim on string-typed boolean columns: the column
`[true, false]` (strings) is classified boolean, yet
`pd.to_numeric(..., errors='coerce')` renders both strings as `NaN`, so the
coercion yields `[null, null]` instead of `[true, false]` — non-null values
are destroyed, contradicting both the claim and the source's own comment
that the (unreachable) `replace` fallback handles `'true'/'false'`.
Python-bool, null, and numeric-string cells do coerce as claimed. -/
theorem C7_boolean_coercion_bug :
    infer_schema_boolean false 1000 [PyVal.vStr "true", PyVal.vStr "false"] = true
    ∧ coerce_boolean_column [PyVal.vStr "true", PyVal.vStr "false"] = [none, none]
    ∧ coerce_boolean_column
        [PyVal.vBool true, PyVal.vBool false, PyVal.vNull, PyVal.vStr "1", PyVal.vStr "0"]
        = [some true, some false, none, some true, some false] := by
  decide

/-! ### Claim C4: fetcher early exit -/

/-- Claim C4: when a page's `next_page` cursor embeds a start time strictly
greater than the supplied stop ceiling, the fetch loop ends after that page
— exactly the one request for the current URL is issued, the cursor is
never requested — and the caller persists the stop time itself as the new
sync watermark, independent of any server-reported end time. -/
theorem C4_early_exit (fetch : Url → PageResp) (target : Int) (url u : Url)
    (fuel : Nat) (hfuel : 0 < fuel)
    (hnext : (fetch url).next_page = some u) (hgt : target < u.startTime)
    (lastSync : Int) (hs : lastSync < target) (e1 e2 : Option Int) :
    extract_zendesk_data fetch target fuel (some url) [] none []
      = some ⟨(fetch url).records, (fetch url).end_time, [url]⟩
    ∧ main_saved_sync_time lastSync target e1 = some target
    ∧ main_saved_sync_time lastSync target e1
        = main_saved_sync_time lastSync target e2 := by
  obtain ⟨f, rfl⟩ : ∃ f, fuel = f + 1 := ⟨fuel - 1, by omega⟩
  refine ⟨?_, ?_, ?_⟩
  · rw [extract_zendesk_data]
    simp [hnext, hgt, extract_zendesk_data]
  · unfold main_saved_sync_time
    rw [if_neg (not_le.mpr hs)]
  · unfold main_saved_sync_time
    rfl

/-- Witness for C4: a server page with records `[1, 2]`, end time `42` and
a continuation cursor at start time `100` against stop ceiling `50`
produces exactly one request and the page's contents. -/
theorem C4_early_exit_witness :
    0 < 5 ∧ (7 : Int) < 50
    ∧ extract_zendesk_data (fun _ => ⟨[1, 2], some 42, some ⟨100⟩⟩) 50 5
        (some ⟨0⟩) [] none [] = some ⟨[1, 2], some 42, [⟨0⟩]⟩
    ∧ main_saved_sync_time 7 50 (some 42) = some 50 :=
  ⟨by decide, by decide,
   (C4_early_exit (fun _ => ⟨[1, 2], some 42, some ⟨100⟩⟩) 50 ⟨0⟩ ⟨100⟩ 5
      (by decide) rfl (by decide) 7 (by decide) (some 42) none).1,
   (C4_early_exit (fun _ => ⟨[1, 2], some 42, some ⟨100⟩⟩) 50 ⟨0⟩ ⟨100⟩ 5
      (by decide) rfl (by decide) 7 (by decide) (some 42) none).2.1⟩

/-! ### Claim C2: two-run equivalence -/

/-- Last row of the list carrying the given primary key, if any. -/
def lastWith (k : Int) (rows : List Rec) : Option Rec :=
  rows.foldl (fun acc r => if k = r.pk then some r else acc) none

/-- Folding the last-with accumulator from any start equals folding from
`none` and falling back to the start. -/
lemma foldl_lastWith_acc (k : Int) (rows : List Rec) (acc : Option Rec) :
    rows.foldl (fun acc r => if k = r.pk then some r else acc) acc
      = (lastWith k rows).elim acc some := by
  induction rows generalizing acc with
  | nil => rfl
  | cons r rows ih =>
    unfold lastWith
    rw [List.foldl_cons, List.foldl_cons]
    by_cases h : k = r.pk
    · rw [if_pos h, if_pos h, ih (some r)]
      cases lastWith k rows <;> rfl
    · rw [if_neg h, if_neg h, ih acc]
      rfl

/-- Unfolding of `lastWith` on a cons cell. -/
lemma lastWith_cons (k : Int) (r : Rec) (rows : List Rec) :
    lastWith k (r :: rows)
      = (lastWith k rows).elim (if k = r.pk then some r else none) some := by
  show rows.foldl (fun acc r => if k = r.pk then some r else acc)
      (if k = r.pk then some r else none) = _
  rw [foldl_lastWith_acc]

/-- Pointwise value of a sequence of upserts: the last inserted row with
the key wins, otherwise the prior table value survives. -/
lemma upsertAll_apply (T : Table) (rows : List Rec) (k : Int) :
    upsertAll T rows k = (lastWith k rows).elim (T k) some := by
  induction rows generalizing T with
  | nil => rfl
  | cons r rows ih =>
    have hstep : upsertAll T (r :: rows) k = upsertAll (upsert T r) rows k := rfl
    rw [hstep, ih (upsert T r), lastWith_cons]
    by_cases h : k = r.pk
    · rw [if_pos h]
      have hu : upsert T r k = some r := by unfold upsert; rw [if_pos h]
      rw [hu]
      cases lastWith k rows <;> rfl
    · rw [if_neg h]
      have hu : upsert T r k = T k := by unfold upsert; rw [if_neg h]
      rw [hu]
      cases lastWith k rows <;> rfl

/-- Re-applying the same row list to an already-upserted table is a no-op:
upserts are idempotent by primary key. -/
lemma upsertAll_idem (T : Table) (rows : List Rec) :
    upsertAll (upsertAll T rows) rows = upsertAll T rows := by
  funext k
  rw [upsertAll_apply, upsertAll_apply]
  cases lastWith k rows <;> rfl

/-- With both watermarks positive and no timestamp inside `(w1, w2]`, the
two filters select the same rows. -/
lemma keptRecs_window_eq (w1 w2 : Int) (rows : List Rec) (h1 : 0 < w1)
    (h12 : w1 < w2) (hwin : noTsInWindow w1 w2 rows = true) :
    keptRecs w1 rows = keptRecs w2 rows := by
  unfold keptRecs
  rw [if_pos h1, if_pos (lt_trans h1 h12)]
  refine List.filter_congr ?_
  intro r hr
  have hw := (List.all_eq_true.mp hwin) r hr
  cases hu : r.upd with
  | none => simp [rowMask, hu]
  | some t =>
    rw [hu] at hw
    simp only [Bool.not_eq_true', Bool.and_eq_false_iff, decide_eq_false_iff_not,
      not_lt, not_le] at hw
    simp only [rowMask, hu]
    rcases hw with hw | hw
    · have ht1 : ¬ (w1 < t) := not_lt.mpr hw
      have ht2 : ¬ (w2 < t) := not_lt.mpr (le_trans hw (le_of_lt h12))
      simp [ht1, ht2]
    · have ht1 : w1 < t := lt_trans h12 hw
      simp [ht1, hw]

/-- Counterexample for C2 as stated: starting from an empty table with one
row timestamped `2`, running incrementally at watermark `1` and then at
watermark `3` keeps the row, while a single run filtered at `3` loads
nothing — the two final states differ, although no timestamp occurs twice
in the window. -/
theorem C2_counterexample :
    runLoad (runLoad (fun _ => none) [⟨1, some 2, 0⟩] 1) [⟨1, some 2, 0⟩] 3
      ≠ runLoad (fun _ => none) [⟨1, some 2, 0⟩] 3 := by
  intro h
  have h1 := congrFun h 1
  simp [runLoad, keptRecs, upsertAll, upsert, rowMask, List.filter] at h1

/-- Claim C2 (amended): for stored watermarks `0 < w1 < w2`, running the
incremental load twice — first filtered at `w1`, then at `w2` — over the
same row set yields the same final table state as a single run filtered at
`w2`, provided no row's parsed timestamp lies in the half-open window
`(w1, w2]` (null-timestamp rows always pass both filters and are merely
re-upserted; the original claim fails because a row inside the window is
loaded by the `w1` run but invisible to the single `w2` run). -/
theorem C2_two_run_equivalence (T : Table) (rows : List Rec) (w1 w2 : Int)
    (h1 : 0 < w1) (h12 : w1 < w2) (hwin : noTsInWindow w1 w2 rows = true) :
    runLoad (runLoad T rows w1) rows w2 = runLoad T rows w2 := by
  unfold runLoad
  rw [keptRecs_window_eq w1 w2 rows h1 h12 hwin]
  exact upsertAll_idem T (keptRecs w2 rows)

/-- Witness for C2 (amended): one row timestamped `5`, watermarks `1` then
`3`: the two-run state equals the single-run state at `3`. -/
theorem C2_two_run_equivalence_witness :
    (0 : Int) < 1 ∧ (1 : Int) < 3
    ∧ noTsInWindow 1 3 [⟨1, some 5, 0⟩] = true
    ∧ runLoad (runLoad (fun _ => none) [⟨1, some 5, 0⟩] 1) [⟨1, some 5, 0⟩] 3
        = runLoad (fun _ => none) [⟨1, some 5, 0⟩] 3 :=
  ⟨by decide, by decide, by decide,
   C2_two_run_equivalence (fun _ => none) [⟨1, some 5, 0⟩] 1 3
     (by decide) (by decide) (by decide)⟩

end ZendeskETL
